import Mathlib

/-!
Verification development for the aiff-rs AIFF container decoder.

The repository sources embedded here are src/src/chunks.rs (the chunk
decoders and the Form aggregate) and src/src/reader.rs (the scan loop, the
sample extractor and the binary primitive reads).  A byte stream is
modelled as a list of natural numbers (each a byte value) together with an
explicit cursor position; every fallible operation returns an Option, with
none standing for a Rust panic (a failed unwrap or a short read), and the
chunk decoders return an explicit outcome type distinguishing panics,
typed chunk errors and successful results, exactly as the Rust code does.
-/

namespace Aiff

/-- A chunk identifier is exactly 4 raw bytes (ids::ChunkID, `[u8; 4]`). -/
abbrev ChunkID := List Nat

/-- Big-endian composition of a byte list into a natural number
(`u32::from_be_bytes` and friends). -/
def beNat (bs : List Nat) : Nat := bs.foldl (fun a b => a * 256 + b) 0

/-- Reinterpret an unsigned value below 2^32 as a two's-complement i32. -/
def toI32 (n : Nat) : Int := if n < 2 ^ 31 then (n : Int) else (n : Int) - 2 ^ 32

/-- Reinterpret an unsigned value below 2^16 as a two's-complement i16. -/
def toI16 (n : Nat) : Int := if n < 2 ^ 15 then (n : Int) else (n : Int) - 2 ^ 16

/-- Reinterpret a byte as a two's-complement i8 (`i8::from_be_bytes`). -/
def toI8 (n : Nat) : Int := if n < 2 ^ 7 then (n : Int) else (n : Int) - 2 ^ 8

/-- The Rust cast `expr as usize` on a 64-bit target: reduce the signed
value modulo 2^64. -/
def toUsize (i : Int) : Nat := (i % (2 : Int) ^ 64).toNat

/-- The Rust cast `i as u32` applied to an i16 value: two's-complement
reinterpretation modulo 2^32. -/
def i16AsU32 (i : Int) : Nat := (i % (2 : Int) ^ 32).toNat

/-- Read exactly n bytes at pos, as `read_exact` does: the whole request
succeeds or the read fails (a short read is a panic at every call site). -/
def readBytesP (data : List Nat) (pos n : Nat) : Option (List Nat) :=
  if pos + n ≤ data.length then some ((data.drop pos).take n) else none

/-- Seek relative to the current position (SeekFrom::Current); seeking to
a negative absolute position fails, seeking past the end is allowed. -/
def seekCur (pos : Nat) (off : Int) : Option Nat :=
  if (pos : Int) + off < 0 then none else some ((pos : Int) + off).toNat

/-- reader::read_u8. -/
def read_u8 (data : List Nat) (pos : Nat) : Option (Nat × Nat) :=
  (readBytesP data pos 1).map fun bs => (beNat bs, pos + 1)

/-- reader::read_u16_be. -/
def read_u16_be (data : List Nat) (pos : Nat) : Option (Nat × Nat) :=
  (readBytesP data pos 2).map fun bs => (beNat bs, pos + 2)

/-- reader::read_u32_be. -/
def read_u32_be (data : List Nat) (pos : Nat) : Option (Nat × Nat) :=
  (readBytesP data pos 4).map fun bs => (beNat bs, pos + 4)

/-- reader::read_i8_be. -/
def read_i8_be (data : List Nat) (pos : Nat) : Option (Int × Nat) :=
  (readBytesP data pos 1).map fun bs => (toI8 (beNat bs), pos + 1)

/-- reader::read_i16_be. -/
def read_i16_be (data : List Nat) (pos : Nat) : Option (Int × Nat) :=
  (readBytesP data pos 2).map fun bs => (toI16 (beNat bs), pos + 2)

/-- reader::read_i32_be. -/
def read_i32_be (data : List Nat) (pos : Nat) : Option (Int × Nat) :=
  (readBytesP data pos 4).map fun bs => (toI32 (beNat bs), pos + 4)

/-- reader::read_chunk_id: 4 raw bytes. -/
def read_chunk_id (data : List Nat) (pos : Nat) : Option (ChunkID × Nat) :=
  (readBytesP data pos 4).map fun bs => (bs, pos + 4)

/-- A UTF-8 continuation byte, 0x80 to 0xBF. -/
def utf8Cont (c : Nat) : Bool := decide (0x80 ≤ c ∧ c ≤ 0xBF)

/-- Whether a byte sequence is valid UTF-8, with the same rules
`String::from_utf8` enforces (no overlong forms, no surrogates, no code
points above U+10FFFF). -/
def utf8Valid : List Nat → Bool
  | [] => true
  | b :: rest =>
    if b ≤ 0x7F then utf8Valid rest
    else if 0xC2 ≤ b ∧ b ≤ 0xDF then
      match rest with
      | c1 :: r => utf8Cont c1 && utf8Valid r
      | [] => false
    else if b = 0xE0 then
      match rest with
      | c1 :: c2 :: r => decide (0xA0 ≤ c1 ∧ c1 ≤ 0xBF) && utf8Cont c2 && utf8Valid r
      | _ => false
    else if 0xE1 ≤ b ∧ b ≤ 0xEC then
      match rest with
      | c1 :: c2 :: r => utf8Cont c1 && utf8Cont c2 && utf8Valid r
      | _ => false
    else if b = 0xED then
      match rest with
      | c1 :: c2 :: r => decide (0x80 ≤ c1 ∧ c1 ≤ 0x9F) && utf8Cont c2 && utf8Valid r
      | _ => false
    else if 0xEE ≤ b ∧ b ≤ 0xEF then
      match rest with
      | c1 :: c2 :: r => utf8Cont c1 && utf8Cont c2 && utf8Valid r
      | _ => false
    else if b = 0xF0 then
      match rest with
      | c1 :: c2 :: c3 :: r =>
        decide (0x90 ≤ c1 ∧ c1 ≤ 0xBF) && utf8Cont c2 && utf8Cont c3 && utf8Valid r
      | _ => false
    else if 0xF1 ≤ b ∧ b ≤ 0xF3 then
      match rest with
      | c1 :: c2 :: c3 :: r => utf8Cont c1 && utf8Cont c2 && utf8Cont c3 && utf8Valid r
      | _ => false
    else if b = 0xF4 then
      match rest with
      | c1 :: c2 :: c3 :: r =>
        decide (0x80 ≤ c1 ∧ c1 ≤ 0x8F) && utf8Cont c2 && utf8Cont c3 && utf8Valid r
      | _ => false
    else false

/-- reader::read_pstring: a 1-byte length, that many bytes, one pad byte
skipped when the length is odd, and a panicking UTF-8 validation.  Returns
the raw string bytes and the position after any pad byte. -/
def read_pstring (data : List Nat) (pos : Nat) : Option (List Nat × Nat) :=
  match read_u8 data pos with
  | none => none
  | some (len, p1) =>
    match readBytesP data p1 len with
    | none => none
    | some sb =>
      let p2 := if len % 2 > 0 then p1 + len + 1 else p1 + len
      if utf8Valid sb then some (sb, p2) else none

namespace ids

/-- Modelled from the spec: the module src/ids.rs defining the Chunk Tag
Table is not under src/; these are the fixed 4-byte ASCII identifiers of
section 6 of the spec (FORM, AIFF, AIFC, COMM, SSND, MARK, INST, MIDI,
AESD, APPL, COMT, NAME, AUTH, the copyright tag, ANNO, FVER, the 3-byte
ID3 marker and the Apple-specific tags). -/
def FORM : ChunkID := [70, 79, 82, 77]

/-- Modelled from the spec: form subtype accepted by the decoder. -/
def AIFF : ChunkID := [65, 73, 70, 70]

/-- Modelled from the spec: form subtype rejected as unsupported. -/
def AIFF_C : ChunkID := [65, 73, 70, 67]

/-- Modelled from the spec: the COMM tag. -/
def COMMON : ChunkID := [67, 79, 77, 77]

/-- Modelled from the spec: the SSND tag. -/
def SOUND : ChunkID := [83, 83, 78, 68]

/-- Modelled from the spec: the MARK tag. -/
def MARKER : ChunkID := [77, 65, 82, 75]

/-- Modelled from the spec: the INST tag. -/
def INSTRUMENT : ChunkID := [73, 78, 83, 84]

/-- Modelled from the spec: the MIDI tag. -/
def MIDI : ChunkID := [77, 73, 68, 73]

/-- Modelled from the spec: the AESD tag. -/
def RECORDING : ChunkID := [65, 69, 83, 68]

/-- Modelled from the spec: the APPL tag. -/
def APPLICATION : ChunkID := [65, 80, 80, 76]

/-- Modelled from the spec: the COMT tag. -/
def COMMENTS : ChunkID := [67, 79, 77, 84]

/-- Modelled from the spec: the NAME tag. -/
def NAME : ChunkID := [78, 65, 77, 69]

/-- Modelled from the spec: the AUTH tag. -/
def AUTHOR : ChunkID := [65, 85, 84, 72]

/-- Modelled from the spec: the 4-byte copyright tag, open parenthesis,
lowercase c, close parenthesis, space. -/
def COPYRIGHT : ChunkID := [40, 99, 41, 32]

/-- Modelled from the spec: the ANNO tag. -/
def ANNOTATION : ChunkID := [65, 78, 78, 79]

/-- Modelled from the spec: the FVER tag. -/
def FVER : ChunkID := [70, 86, 69, 82]

/-- Modelled from the spec: the 3-byte embedded tag-metadata marker,
uppercase I, uppercase D, digit three. -/
def ID3 : List Nat := [73, 68, 51]

/-- Modelled from the spec: Apple-specific tag. -/
def CHAN : ChunkID := [67, 72, 65, 78]

/-- Modelled from the spec: Apple-specific tag. -/
def BASC : ChunkID := [66, 65, 83, 67]

/-- Modelled from the spec: Apple-specific tag. -/
def TRNS : ChunkID := [84, 82, 78, 83]

/-- Modelled from the spec: Apple-specific tag. -/
def CATE : ChunkID := [67, 65, 84, 69]

end ids

/-- Modelled from the spec: the module src/extended.rs
(parse_extended_precision_bytes) is not under src/.  Input is exactly 10
bytes of an 80-bit extended float, 1 sign bit, 15 exponent bits, 64
explicit mantissa bits; all-zero input is exactly 0.0; bit patterns the
decoder does not support (infinities, NaNs, denormals) fail; otherwise the
value is sign times mantissa times 2 to the unbiased exponent. -/
def parse_extended_precision_bytes (b : List Nat) : Except Unit Float :=
  match b with
  | [b0, b1, b2, b3, b4, b5, b6, b7, b8, b9] =>
    if b0 = 0 ∧ b1 = 0 ∧ b2 = 0 ∧ b3 = 0 ∧ b4 = 0 ∧
        b5 = 0 ∧ b6 = 0 ∧ b7 = 0 ∧ b8 = 0 ∧ b9 = 0 then
      .ok 0.0
    else
      let sign := b0 / 128
      let exponent := b0 % 128 * 256 + b1
      let mantissa := beNat [b2, b3, b4, b5, b6, b7, b8, b9]
      if exponent = 0 ∨ exponent = 0x7FFF then .error ()
      else
        let e : Int := (exponent : Int) - 16383 - 63
        let mag : Float :=
          if 0 ≤ e then Float.ofNat mantissa * Float.ofNat (2 ^ e.toNat)
          else Float.ofNat mantissa / Float.ofNat (2 ^ (-e).toNat)
        .ok (if sign = 1 then -mag else mag)
  | _ => .error ()

/-- chunks::ChunkError. -/
inductive ChunkError where
  | invalidID (id : ChunkID)
  | invalidFormType (id : ChunkID)
  | invalidID3Version (v : Nat × Nat)
  | invalidSize (expected actual : Int)
  | invalidData (reason : String)
  deriving DecidableEq, Repr

/-- The outcome of one chunk parse call: a Rust panic, a typed chunk
error, or Ok carrying either a decoded value or the skipped result None. -/
inductive ParseOut (α : Type) where
  | panicked
  | error (e : ChunkError)
  | ok (v : Option α)
  deriving DecidableEq

/-- Whether a parse outcome is Ok (either a value or the skipped result). -/
def ParseOut.isOk {α : Type} : ParseOut α → Bool
  | .ok _ => true
  | _ => false

/-- Whether a parse outcome is Ok carrying a decoded value. -/
def ParseOut.isSomeOk {α : Type} : ParseOut α → Bool
  | .ok (some _) => true
  | _ => false

/-- Erase the decoded value of a parse outcome, keeping its shape. -/
def ParseOut.erase {α : Type} : ParseOut α → ParseOut Unit
  | .panicked => .panicked
  | .error e => .error e
  | .ok none => .ok none
  | .ok (some _) => .ok (some ())

/-- Read exactly n bytes and also return the advanced position
(`read_exact` into an n-byte buffer). -/
def read_exactN (data : List Nat) (pos n : Nat) : Option (List Nat × Nat) :=
  (readBytesP data pos n).map fun bs => (bs, pos + n)

/-- Sequence a primitive read inside a chunk parse: a failed read is a
panic (every read in chunks.rs is unwrapped), a successful one continues. -/
def step {α β : Type} (r : Option (α × Nat)) (pos : Nat)
    (k : α → Nat → ParseOut β × Nat) : ParseOut β × Nat :=
  match r with
  | none => (.panicked, pos)
  | some (v, p) => k v p

/-- Sequence an unwrapped seek inside a chunk parse. -/
def stepSeek {β : Type} (r : Option Nat) (pos : Nat)
    (k : Nat → ParseOut β × Nat) : ParseOut β × Nat :=
  match r with
  | none => (.panicked, pos)
  | some p => k p

/-- chunks::CommonChunk. -/
structure CommonChunk where
  size : Int
  num_channels : Int
  num_sample_frames : Nat
  bit_rate : Int
  sample_rate : Float

/-- chunks::SoundDataChunk. -/
structure SoundDataChunk where
  size : Int
  offset : Nat
  block_size : Nat
  sound_data : List Nat

/-- chunks::Marker; the name string is kept as its raw validated bytes. -/
structure Marker where
  id : Int
  position : Nat
  marker_name : List Nat
  deriving DecidableEq, Repr

/-- chunks::MarkerChunk. -/
structure MarkerChunk where
  size : Int
  num_markers : Nat
  markers : List Marker
  deriving DecidableEq, Repr

/-- chunks::TextChunkType. -/
inductive TextChunkType where
  | name
  | author
  | copyright
  | annotation
  deriving DecidableEq, Repr

/-- chunks::TextChunk; the text is kept as its raw validated UTF-8 bytes. -/
structure TextChunk where
  chunk_type : TextChunkType
  size : Int
  text : List Nat
  deriving DecidableEq, Repr

/-- chunks::Loop. -/
structure Loop where
  play_mode : Int
  begin_loop : Int
  end_loop : Int
  deriving DecidableEq, Repr

/-- chunks::InstrumentChunk. -/
structure InstrumentChunk where
  size : Int
  base_note : Int
  detune : Int
  low_note : Int
  high_note : Int
  low_velocity : Int
  high_velocity : Int
  gain : Int
  sustain_loop : Loop
  release_loop : Loop
  deriving DecidableEq, Repr

/-- chunks::MIDIDataChunk. -/
structure MIDIDataChunk where
  size : Int
  data : List Nat
  deriving DecidableEq, Repr

/-- chunks::AudioRecordingChunk (a fixed 24-byte AES payload). -/
structure AudioRecordingChunk where
  size : Int
  data : List Nat
  deriving DecidableEq, Repr

/-- chunks::ApplicationSpecificChunk; data holds i8 values. -/
structure ApplicationSpecificChunk where
  size : Int
  application_signature : ChunkID
  data : List Int
  deriving DecidableEq, Repr

/-- chunks::Comment. -/
structure Comment where
  timestamp : Nat
  marker_id : Int
  count : Nat
  text : List Nat
  deriving DecidableEq, Repr

/-- chunks::CommentsChunk. -/
structure CommentsChunk where
  size : Int
  num_comments : Nat
  comments : List Comment
  deriving DecidableEq, Repr

/-- chunks::ID3v2Chunk; the tag value produced by the external id3 codec
is opaque to this system. -/
structure ID3v2Chunk where
  tag : Unit
  deriving DecidableEq, Repr

/-- chunks::FormChunk, the decoded container. -/
structure FormChunk where
  common : Option CommonChunk
  sound : Option SoundDataChunk
  comments : Option CommentsChunk
  instrument : Option InstrumentChunk
  recording : Option AudioRecordingChunk
  texts : Option (List TextChunk)
  markers : Option (List MarkerChunk)
  midi : Option (List MIDIDataChunk)
  apps : Option (List ApplicationSpecificChunk)

/-- FormChunk::set_common. -/
def FormChunk.set_common (f : FormChunk) (c : CommonChunk) : FormChunk :=
  { f with common := some c }

/-- FormChunk::set_sound. -/
def FormChunk.set_sound (f : FormChunk) (c : SoundDataChunk) : FormChunk :=
  { f with sound := some c }

/-- FormChunk::set_comments. -/
def FormChunk.set_comments (f : FormChunk) (c : CommentsChunk) : FormChunk :=
  { f with comments := some c }

/-- FormChunk::set_instrument. -/
def FormChunk.set_instrument (f : FormChunk) (c : InstrumentChunk) : FormChunk :=
  { f with instrument := some c }

/-- FormChunk::set_recording. -/
def FormChunk.set_recording (f : FormChunk) (c : AudioRecordingChunk) : FormChunk :=
  { f with recording := some c }

/-- FormChunk::add_text_chunk: lazily create the list, then push. -/
def FormChunk.add_text_chunk (f : FormChunk) (c : TextChunk) : FormChunk :=
  { f with texts := some (f.texts.getD [] ++ [c]) }

/-- FormChunk::add_marker_chunk. -/
def FormChunk.add_marker_chunk (f : FormChunk) (c : MarkerChunk) : FormChunk :=
  { f with markers := some (f.markers.getD [] ++ [c]) }

/-- FormChunk::add_midi_chunk. -/
def FormChunk.add_midi_chunk (f : FormChunk) (c : MIDIDataChunk) : FormChunk :=
  { f with midi := some (f.midi.getD [] ++ [c]) }

/-- FormChunk::add_app_chunk. -/
def FormChunk.add_app_chunk (f : FormChunk) (c : ApplicationSpecificChunk) : FormChunk :=
  { f with apps := some (f.apps.getD [] ++ [c]) }

/-- FormChunk::duration: sample-frame count (as f64) divided by the
sample rate when a Common chunk is set, absent otherwise. -/
def FormChunk.duration (f : FormChunk) : Option Float :=
  match f.common with
  | some common => some (Float.ofNat common.num_sample_frames / common.sample_rate)
  | none => none

/-- FormChunk::parse, full-decode and skip paths, without the offset
slot (the slot write is the uniform first statement of every decoder and
is modelled once in parseAt below). -/
def FormChunk.parseCore (data : List Nat) (pos : Nat) (id : ChunkID)
    (read_data : Bool) : ParseOut FormChunk × Nat :=
  if id ≠ ids.FORM then (.error (.invalidID id), pos) else
  step (read_i32_be data pos) pos fun _size p1 =>
  if !read_data then
    stepSeek (seekCur p1 4) p1 fun p2 => (.ok none, p2)
  else
  step (read_chunk_id data p1) p1 fun form_type p2 =>
  if form_type = ids.AIFF then
    (.ok (some ⟨none, none, none, none, none, none, none, none, none⟩), p2)
  else if form_type = ids.AIFF_C then
    (.error (.invalidFormType form_type), p2)
  else
    (.error (.invalidFormType form_type), p2)

/-- CommonChunk::parse without the offset slot. -/
def CommonChunk.parseCore (data : List Nat) (pos : Nat) (id : ChunkID)
    (read_data : Bool) : ParseOut CommonChunk × Nat :=
  if id ≠ ids.COMMON then (.error (.invalidID id), pos) else
  step (read_i32_be data pos) pos fun size p1 =>
  step (read_i16_be data p1) p1 fun num_channels p2 =>
  step (read_u32_be data p2) p2 fun num_sample_frames p3 =>
  step (read_i16_be data p3) p3 fun bit_rate p4 =>
  if !read_data then
    stepSeek (seekCur p4 10) p4 fun p5 => (.ok none, p5)
  else
  step (read_exactN data p4 10) p4 fun rate_buf p5 =>
  match parse_extended_precision_bytes rate_buf with
  | .error _ => (.error (.invalidData "Extended Precision"), p5)
  | .ok sample_rate =>
    (.ok (some ⟨size, num_channels, num_sample_frames, bit_rate, sample_rate⟩), p5)

/-- SoundDataChunk::parse without the offset slot. -/
def SoundDataChunk.parseCore (data : List Nat) (pos : Nat) (id : ChunkID)
    (read_data : Bool) : ParseOut SoundDataChunk × Nat :=
  if id ≠ ids.SOUND then (.error (.invalidID id), pos) else
  step (read_i32_be data pos) pos fun size p1 =>
  step (read_u32_be data p1) p1 fun offset p2 =>
  step (read_u32_be data p2) p2 fun block_size p3 =>
  if !read_data then
    stepSeek (seekCur p3 size) p3 fun p4 => (.ok none, p4)
  else
  step (read_exactN data p3 (toUsize size)) p3 fun sound_data p4 =>
  (.ok (some ⟨size, offset, block_size, sound_data⟩), p4)

/-- Marker::from_reader. -/
def Marker.from_reader (data : List Nat) (pos : Nat) : Option (Marker × Nat) :=
  (read_i16_be data pos).bind fun idp =>
  (read_u32_be data idp.2).bind fun posp =>
  (read_pstring data posp.2).map fun namep =>
  (⟨idp.1, posp.1, namep.1⟩, namep.2)

/-- The marker-reading loop of MarkerChunk::parse. -/
def readMarkers (data : List Nat) : Nat → Nat → Option (List Marker × Nat)
  | 0, pos => some ([], pos)
  | n + 1, pos =>
    (Marker.from_reader data pos).bind fun mp =>
    (readMarkers data n mp.2).map fun msp => (mp.1 :: msp.1, msp.2)

/-- MarkerChunk::parse without the offset slot; the read_data flag is
accepted but never consulted (the skip branch is commented out in the
source). -/
def MarkerChunk.parseCore (data : List Nat) (pos : Nat) (id : ChunkID)
    (read_data : Bool) : ParseOut MarkerChunk × Nat :=
  if id ≠ ids.MARKER then (.error (.invalidID id), pos) else
  step (read_i32_be data pos) pos fun size p1 =>
  step (read_u16_be data p1) p1 fun num_markers p2 =>
  match readMarkers data num_markers p2 with
  | none => (.panicked, p2)
  | some (markers, p3) => (.ok (some ⟨size, num_markers, markers⟩), p3)

/-- The tag dispatch at the top of TextChunk::parse, selecting the text
chunk type from the id (any other id is the InvalidID early return). -/
def TextChunk.chunkType (id : ChunkID) : Option TextChunkType :=
  if id = ids.NAME then some .name
  else if id = ids.AUTHOR then some .author
  else if id = ids.COPYRIGHT then some .copyright
  else if id = ids.ANNOTATION then some TextChunkType.annotation
  else none

/-- TextChunk::parse without the offset slot. -/
def TextChunk.parseCore (data : List Nat) (pos : Nat) (id : ChunkID)
    (read_data : Bool) : ParseOut TextChunk × Nat :=
  match TextChunk.chunkType id with
  | none => (.error (.invalidID id), pos)
  | some chunk_type =>
    step (read_i32_be data pos) pos fun size p1 =>
    let buf_pos_offset : Int := if size.tmod 2 > 0 then 1 else 0
    if !read_data then
      stepSeek (seekCur p1 (size + buf_pos_offset)) p1 fun p2 => (.ok none, p2)
    else
    step (read_exactN data p1 (toUsize size)) p1 fun text_bytes p2 =>
    if utf8Valid text_bytes then
      stepSeek (seekCur p2 buf_pos_offset) p2 fun p3 =>
      (.ok (some ⟨chunk_type, size, text_bytes⟩), p3)
    else (.panicked, p2)

/-- Loop::from_reader. -/
def Loop.from_reader (data : List Nat) (pos : Nat) : Option (Loop × Nat) :=
  (read_i16_be data pos).bind fun pm =>
  (read_i16_be data pm.2).bind fun bl =>
  (read_i16_be data bl.2).map fun el =>
  (⟨pm.1, bl.1, el.1⟩, el.2)

/-- InstrumentChunk::parse without the offset slot; the read_data flag is
accepted but never consulted. -/
def InstrumentChunk.parseCore (data : List Nat) (pos : Nat) (id : ChunkID)
    (read_data : Bool) : ParseOut InstrumentChunk × Nat :=
  if id ≠ ids.INSTRUMENT then (.error (.invalidID id), pos) else
  step (read_i32_be data pos) pos fun size p1 =>
  step (read_i8_be data p1) p1 fun base_note p2 =>
  step (read_i8_be data p2) p2 fun detune p3 =>
  step (read_i8_be data p3) p3 fun low_note p4 =>
  step (read_i8_be data p4) p4 fun high_note p5 =>
  step (read_i8_be data p5) p5 fun low_velocity p6 =>
  step (read_i8_be data p6) p6 fun high_velocity p7 =>
  step (read_i16_be data p7) p7 fun gain p8 =>
  step (Loop.from_reader data p8) p8 fun sustain_loop p9 =>
  step (Loop.from_reader data p9) p9 fun release_loop p10 =>
  (.ok (some ⟨size, base_note, detune, low_note, high_note, low_velocity,
      high_velocity, gain, sustain_loop, release_loop⟩), p10)

/-- MIDIDataChunk::parse without the offset slot. -/
def MIDIDataChunk.parseCore (data : List Nat) (pos : Nat) (id : ChunkID)
    (read_data : Bool) : ParseOut MIDIDataChunk × Nat :=
  if id ≠ ids.MIDI then (.error (.invalidID id), pos) else
  step (read_i32_be data pos) pos fun size p1 =>
  if !read_data then
    stepSeek (seekCur p1 size) p1 fun p2 => (.ok none, p2)
  else
  step (read_exactN data p1 (toUsize size)) p1 fun d p2 =>
  (.ok (some ⟨size, d⟩), p2)

/-- AudioRecordingChunk::parse without the offset slot. -/
def AudioRecordingChunk.parseCore (data : List Nat) (pos : Nat) (id : ChunkID)
    (read_data : Bool) : ParseOut AudioRecordingChunk × Nat :=
  if id ≠ ids.RECORDING then (.error (.invalidID id), pos) else
  step (read_i32_be data pos) pos fun size p1 =>
  if size ≠ 24 then (.error (.invalidSize 24 size), p1) else
  if !read_data then
    stepSeek (seekCur p1 24) p1 fun p2 => (.ok none, p2)
  else
  step (read_exactN data p1 24) p1 fun d p2 =>
  (.ok (some ⟨size, d⟩), p2)

/-- ApplicationSpecificChunk::parse without the offset slot. -/
def ApplicationSpecificChunk.parseCore (data : List Nat) (pos : Nat) (id : ChunkID)
    (read_data : Bool) : ParseOut ApplicationSpecificChunk × Nat :=
  if id ≠ ids.APPLICATION then (.error (.invalidID id), pos) else
  step (read_i32_be data pos) pos fun size p1 =>
  step (read_chunk_id data p1) p1 fun application_signature p2 =>
  if !read_data then
    stepSeek (seekCur p2 (size - 4)) p2 fun p3 => (.ok none, p3)
  else
  step (read_exactN data p2 (toUsize (size - 4))) p2 fun d p3 =>
  (.ok (some ⟨size, application_signature, d.map toI8⟩), p3)

/-- Comment::from_reader; the text bytes are validated as UTF-8 with a
panicking unwrap, and no pad byte is consumed. -/
def Comment.from_reader (data : List Nat) (pos : Nat) : Option (Comment × Nat) :=
  (read_u32_be data pos).bind fun ts =>
  (read_i16_be data ts.2).bind fun mid =>
  (read_u16_be data mid.2).bind fun cnt =>
  (read_exactN data cnt.2 cnt.1).bind fun sb =>
  if utf8Valid sb.1 then some (⟨ts.1, mid.1, cnt.1, sb.1⟩, sb.2) else none

/-- The comment-reading loop of CommentsChunk::parse. -/
def readComments (data : List Nat) : Nat → Nat → Option (List Comment × Nat)
  | 0, pos => some ([], pos)
  | n + 1, pos =>
    (Comment.from_reader data pos).bind fun cp =>
    (readComments data n cp.2).map fun csp => (cp.1 :: csp.1, csp.2)

/-- CommentsChunk::parse without the offset slot; the read_data flag is
accepted but never consulted. -/
def CommentsChunk.parseCore (data : List Nat) (pos : Nat) (id : ChunkID)
    (read_data : Bool) : ParseOut CommentsChunk × Nat :=
  if id ≠ ids.COMMENTS then (.error (.invalidID id), pos) else
  step (read_i32_be data pos) pos fun size p1 =>
  step (read_u16_be data p1) p1 fun num_comments p2 =>
  match readComments data num_comments p2 with
  | none => (.panicked, p2)
  | some (comments, p3) => (.ok (some ⟨size, num_comments, comments⟩), p3)

/-- The external tag codec (the id3 crate), a black box: given the byte
stream and the position of the 3-byte marker, it either consumes the tag
and reports the position just after it, or fails. -/
def Codec : Type := List Nat → Nat → Option Nat

/-- ID3v2Chunk::parse without the offset slot; the read_data flag is
accepted but never consulted.  The version probe seeks 3 bytes past the
marker, reads 2 version bytes, seeks back 5, then delegates the stream to
the external codec with a panicking unwrap. -/
def ID3v2Chunk.parseCore (codec : Codec) (data : List Nat) (pos : Nat)
    (id : ChunkID) (read_data : Bool) : ParseOut ID3v2Chunk × Nat :=
  if ¬(id.take 3 = ids.ID3 ∨ id.drop 1 = ids.ID3) then
    (.error (.invalidID id), pos)
  else
  stepSeek (seekCur pos 3) pos fun p1 =>
  step (read_exactN data p1 2) p1 fun version p2 =>
  stepSeek (seekCur p2 (-5)) p2 fun p3 =>
  match version with
  | [v0, v1] =>
    if v0 > 4 ∨ v1 ≠ 0 then (.error (.invalidID3Version (v0, v1)), p3)
    else
      match codec data p3 with
      | none => (.panicked, p3)
      | some p4 => (.ok (some ⟨()⟩), p4)
  | _ => (.panicked, p3)

/-- The chunk kinds implementing the Chunk trait in chunks.rs. -/
inductive ChunkKind where
  | form
  | common
  | sound
  | marker
  | text
  | instrument
  | midi
  | recording
  | application
  | comments
  | id3
  deriving DecidableEq, Repr

/-- Dispatch a parse to the decoder of the given chunk kind, erasing the
decoded value so outcomes of different kinds are comparable. -/
def parseCoreAt (codec : Codec) (k : ChunkKind) (data : List Nat) (pos : Nat)
    (id : ChunkID) (read_data : Bool) : ParseOut Unit × Nat :=
  match k with
  | .form => let r := FormChunk.parseCore data pos id read_data; (r.1.erase, r.2)
  | .common => let r := CommonChunk.parseCore data pos id read_data; (r.1.erase, r.2)
  | .sound => let r := SoundDataChunk.parseCore data pos id read_data; (r.1.erase, r.2)
  | .marker => let r := MarkerChunk.parseCore data pos id read_data; (r.1.erase, r.2)
  | .text => let r := TextChunk.parseCore data pos id read_data; (r.1.erase, r.2)
  | .instrument => let r := InstrumentChunk.parseCore data pos id read_data; (r.1.erase, r.2)
  | .midi => let r := MIDIDataChunk.parseCore data pos id read_data; (r.1.erase, r.2)
  | .recording => let r := AudioRecordingChunk.parseCore data pos id read_data; (r.1.erase, r.2)
  | .application => let r := ApplicationSpecificChunk.parseCore data pos id read_data; (r.1.erase, r.2)
  | .comments => let r := CommentsChunk.parseCore data pos id read_data; (r.1.erase, r.2)
  | .id3 => let r := ID3v2Chunk.parseCore codec data pos id read_data; (r.1.erase, r.2)

/-- The result of a full parse call including the offset-output slot. -/
structure ParseResult where
  out : ParseOut Unit
  pos : Nat
  slot : Option Nat

/-- A parse call including the offset slot.  Every decoder in chunks.rs
starts with the same statement: when the caller passed Some slot, the
current buffer position (the position of the chunk size field, right
after the tag) is written into it, before any byte is consumed, and the
slot is never written again. -/
def parseAt (codec : Codec) (k : ChunkKind) (data : List Nat) (pos : Nat)
    (id : ChunkID) (read_data : Bool) (curr_buf_pos : Option Nat) : ParseResult :=
  let r := parseCoreAt codec k data pos id read_data
  ⟨r.1, r.2, curr_buf_pos.map fun _ => pos⟩

/-- Which chunk kinds honor the skip-only flag (return Ok None without
materializing a value when read_data is false). -/
def skipHonored : ChunkKind → Bool
  | .form => true
  | .common => true
  | .sound => true
  | .text => true
  | .midi => true
  | .recording => true
  | .application => true
  | _ => false

/-- The 16-bit sample-point loop of AiffReader::samples: for each point
index, the location is the index times 2 (a u32 multiplication, wrapping
modulo 2^32, then cast to usize), and two consecutive payload bytes are
combined big-endian; an out-of-range index panics. -/
def collect16 (d : List Nat) : Nat → Nat → Option (List Nat)
  | _, 0 => some []
  | k, n + 1 =>
    match d[2 * k % 2 ^ 32]?, d[2 * k % 2 ^ 32 + 1]? with
    | some a, some b => (collect16 d (k + 1) n).map fun rest => (a * 256 + b) :: rest
    | _, _ => none

/-- AiffReader::samples.  The form chunk, its sound chunk and its common
chunk are all unwrapped (a missing one panics, modelled as none); the
point count is the sample-frame count times the channel count cast to
u32; only bit depths strictly between 8 and 17 are implemented, every
other depth panics (unimplemented or an invalid point size). -/
def samples (form_chunk : Option FormChunk) : Option (List Nat) :=
  match form_chunk with
  | none => none
  | some f =>
    match f.sound, f.common with
    | some s, some c =>
      let sample_points := c.num_sample_frames * i16AsU32 c.num_channels % 2 ^ 32
      if 16 < c.bit_rate then none
      else if 8 < c.bit_rate then collect16 s.sound_data 0 sample_points
      else none
    | _, _ => none

/-- The state of the scan loop in AiffReader::read: the byte stream with
its cursor, the form aggregate being accumulated, and the reader-level
list of embedded tag-metadata values. -/
structure ScanState where
  data : List Nat
  pos : Nat
  form : FormChunk
  id3v2_tags : List ID3v2Chunk

/-- The outcome of one iteration of the scan loop: either the loop
continues with a new state, or the whole read panics (every chunk parse
in the loop is unwrapped, and some tags are unimplemented). -/
inductive StepRes where
  | next (s : ScanState)
  | panicked

/-- One iteration of the scan loop of AiffReader::read: read a 4-byte
tag and dispatch on it in source order.  Recognized chunk tags decode in
full mode with a panicking unwrap and fold the value into the aggregate;
an embedded tag-metadata marker at either alignment rewinds to the
marker, parses, and on a chunk error seeks 3 bytes forward and continues;
FVER and the Apple tags are unimplemented (panic); version-1 tag markers
and unrecognized tags are only logged, and nothing else happens. -/
def readStep (codec : Codec) (s : ScanState) : StepRes :=
  match read_chunk_id s.data s.pos with
  | none => .panicked
  | some (id, pos) =>
    if id = ids.COMMON then
      match CommonChunk.parseCore s.data pos id true with
      | (.ok (some c), p) => .next { s with pos := p, form := s.form.set_common c }
      | _ => .panicked
    else if id = ids.SOUND then
      match SoundDataChunk.parseCore s.data pos id true with
      | (.ok (some c), p) => .next { s with pos := p, form := s.form.set_sound c }
      | _ => .panicked
    else if id = ids.MARKER then
      match MarkerChunk.parseCore s.data pos id true with
      | (.ok (some c), p) => .next { s with pos := p, form := s.form.add_marker_chunk c }
      | _ => .panicked
    else if id = ids.INSTRUMENT then
      match InstrumentChunk.parseCore s.data pos id true with
      | (.ok (some c), p) => .next { s with pos := p, form := s.form.set_instrument c }
      | _ => .panicked
    else if id = ids.MIDI then
      match MIDIDataChunk.parseCore s.data pos id true with
      | (.ok (some c), p) => .next { s with pos := p, form := s.form.add_midi_chunk c }
      | _ => .panicked
    else if id = ids.RECORDING then
      match AudioRecordingChunk.parseCore s.data pos id true with
      | (.ok (some c), p) => .next { s with pos := p, form := s.form.set_recording c }
      | _ => .panicked
    else if id = ids.APPLICATION then
      match ApplicationSpecificChunk.parseCore s.data pos id true with
      | (.ok (some c), p) => .next { s with pos := p, form := s.form.add_app_chunk c }
      | _ => .panicked
    else if id = ids.COMMENTS then
      match CommentsChunk.parseCore s.data pos id true with
      | (.ok (some c), p) => .next { s with pos := p, form := s.form.set_comments c }
      | _ => .panicked
    else if id = ids.NAME ∨ id = ids.AUTHOR ∨ id = ids.COPYRIGHT ∨ id = ids.ANNOTATION then
      match TextChunk.parseCore s.data pos id true with
      | (.ok (some c), p) => .next { s with pos := p, form := s.form.add_text_chunk c }
      | _ => .panicked
    else if id = ids.FVER then
      .panicked
    else if id.take 3 = ids.ID3 then
      match ID3v2Chunk.parseCore codec s.data s.pos id true with
      | (.ok (some c), p) => .next { s with pos := p, id3v2_tags := s.id3v2_tags ++ [c] }
      | (.error _, p) => .next { s with pos := p + 3 }
      | _ => .panicked
    else if id.drop 1 = ids.ID3 then
      match ID3v2Chunk.parseCore codec s.data (s.pos + 1) id true with
      | (.ok (some c), p) => .next { s with pos := p, id3v2_tags := s.id3v2_tags ++ [c] }
      | (.error _, p) => .next { s with pos := p + 3 }
      | _ => .panicked
    else if id.take 3 = [84, 65, 71] then
      .next { s with pos := pos }
    else if id.drop 1 = [84, 65, 71] then
      .next { s with pos := pos }
    else if id = ids.CHAN ∨ id = ids.BASC ∨ id = ids.TRNS ∨ id = ids.CATE then
      .panicked
    else
      .next { s with pos := pos }

/-- The outcome of AiffReader::read. -/
inductive ReadResult where
  | done (form : FormChunk) (id3v2_tags : List ID3v2Chunk) (pos : Nat)
  | err (e : ChunkError)
  | panicked
  | fuelOut

/-- The scan loop of AiffReader::read, with explicit fuel since the
source loop need not terminate on adversarial codecs: while at least 4
bytes are available, run one step. -/
def readLoop (codec : Codec) : Nat → ScanState → ReadResult
  | 0, _ => .fuelOut
  | fuel + 1, s =>
    if 4 ≤ s.data.length - s.pos then
      match readStep codec s with
      | .next s2 => readLoop codec fuel s2
      | .panicked => .panicked
    else
      .done s.form s.id3v2_tags s.pos

/-- AiffReader::read: read the outer FORM tag, parse the FORM chunk (an
error there propagates as the result), then scan sub-chunks until fewer
than 4 bytes remain. -/
def AiffReader.read (codec : Codec) (data : List Nat) : ReadResult :=
  match read_chunk_id data 0 with
  | none => .panicked
  | some (form_id, pos) =>
    match FormChunk.parseCore data pos form_id true with
    | (.ok (some form), p) => readLoop codec (data.length + 1) ⟨data, p, form, []⟩
    | (.ok none, _) => .panicked
    | (.error e, _) => .err e
    | (.panicked, _) => .panicked

/-- A form aggregate with every chunk slot empty, as FormChunk::parse
constructs it for an AIFF subtype. -/
def emptyForm : FormChunk := ⟨none, none, none, none, none, none, none, none, none⟩

/-- A concrete external codec that always fails. -/
def codec0 : Codec := fun _ _ => none

/-- A concrete 12-byte stream: the outer FORM header with subtype AIFF and
no sub-chunks at all. -/
def d10 : List Nat := [70, 79, 82, 77, 0, 0, 0, 4, 65, 73, 70, 70]

/-- A concrete scan state whose next 4 bytes are an unrecognized tag,
followed by a 4-byte size field declaring 2 payload bytes. -/
def s3state : ScanState := ⟨[88, 88, 88, 88, 0, 0, 0, 2, 9, 9], 0, emptyForm, []⟩

/-- A concrete scan state at an embedded tag-metadata marker (alignment
offset 0) whose version bytes 5.0 are unsupported. -/
def s9bad : ScanState := ⟨[73, 68, 51, 5, 0, 0, 0, 0, 0, 0], 0, emptyForm, []⟩

/-- A concrete scan state at an embedded tag-metadata marker at alignment
offset 1 whose version bytes 9.0 are unsupported. -/
def s9off1 : ScanState := ⟨[0, 73, 68, 51, 9, 0, 0, 0, 0, 0], 0, emptyForm, []⟩

/-- A concrete scan state at an embedded tag-metadata marker with valid
version bytes 3.0, so validation passes and the external codec is
consulted. -/
def s9ok : ScanState := ⟨[73, 68, 51, 3, 0, 0, 0, 0, 0, 0], 0, emptyForm, []⟩

/-- A concrete text-chunk body: declared size 3 (odd), the bytes of abc,
then one pad byte. -/
def dText8 : List Nat := [0, 0, 0, 3, 97, 98, 99, 0]

/-- A concrete marker-chunk body: declared size 2, marker count 0. -/
def dMarker6 : List Nat := [0, 0, 0, 2, 0, 0]

/-- A concrete AESD body declaring size 23. -/
def dAesd23 : List Nat := [0, 0, 0, 23]

/-- A concrete AESD body declaring size 24 followed by 24 payload bytes. -/
def dAesd24 : List Nat :=
  [0, 0, 0, 24] ++ List.replicate 24 7

/-- A concrete FORM body whose declared subtype is AIFC. -/
def dFormAifc : List Nat := [0, 0, 0, 10, 65, 73, 70, 67]

/-- A concrete FORM body whose declared subtype is AIFF. -/
def dFormAiff : List Nat := [0, 0, 0, 10, 65, 73, 70, 70]

/-- A decoded Common chunk with 2 channels, 4 sample frames, 16-bit
depth. -/
def c4common : CommonChunk := ⟨18, 2, 4, 16, 44100.0⟩

/-- A decoded Sound chunk with a 16-byte payload. -/
def c4sound : SoundDataChunk := ⟨16, 0, 0, [0, 1, 0, 2, 0, 3, 0, 4, 0, 5, 0, 6, 0, 7, 0, 8]⟩

/-- A form aggregate holding c4common and c4sound. -/
def c4form : FormChunk :=
  ⟨some c4common, some c4sound, none, none, none, none, none, none, none⟩

/-- A form aggregate whose Common chunk stores bit depth 8 (1 channel, 1
sample frame) over a 1-byte Sound payload. -/
def form8 : FormChunk :=
  ⟨some ⟨10, 1, 1, 8, 8000.0⟩, some ⟨1, 0, 0, [5]⟩, none, none, none, none, none, none, none⟩

/-- A form aggregate whose Common chunk stores bit depth 17. -/
def form17 : FormChunk :=
  ⟨some ⟨10, 1, 1, 17, 8000.0⟩, some ⟨4, 0, 0, [0, 0, 0, 0]⟩, none, none, none, none, none, none, none⟩

/-- A form aggregate whose Common chunk reports 441 sample frames at
44100.0 frames per second. -/
def formC8 : FormChunk :=
  ⟨some ⟨18, 2, 441, 16, 44100.0⟩, none, none, none, none, none, none, none, none⟩

theorem step_some {α β : Type} (v : α) (p pos : Nat) (k : α → Nat → ParseOut β × Nat) :
    step (some (v, p)) pos k = k v p := rfl

theorem step_nothing {α β : Type} (pos : Nat) (k : α → Nat → ParseOut β × Nat) :
    step none pos k = (.panicked, pos) := rfl

theorem stepSeek_some {β : Type} (p pos : Nat) (k : Nat → ParseOut β × Nat) :
    stepSeek (some p) pos k = k p := rfl

theorem stepSeek_nothing {β : Type} (pos : Nat) (k : Nat → ParseOut β × Nat) :
    stepSeek none pos k = (.panicked, pos) := rfl

theorem seekCur_nonneg (pos : Nat) (off : Int) (h : 0 ≤ off) :
    seekCur pos off = some (pos + off.toNat) := by
  unfold seekCur
  rw [if_neg (by omega)]
  congr 1
  omega

theorem seekCur_m5 (pos : Nat) (h : 5 ≤ pos) : seekCur pos (-5) = some (pos - 5) := by
  unfold seekCur
  rw [if_neg (by omega)]
  congr 1
  omega

theorem step_pres {α β : Type} (P : ParseOut β × Nat → Prop) (r : Option (α × Nat))
    (pos : Nat) (k : α → Nat → ParseOut β × Nat)
    (hpan : P (.panicked, pos)) (hk : ∀ v p, P (k v p)) : P (step r pos k) := by
  cases r with
  | none => exact hpan
  | some vp => exact hk vp.1 vp.2

theorem stepSeek_pres {β : Type} (P : ParseOut β × Nat → Prop) (r : Option Nat)
    (pos : Nat) (k : Nat → ParseOut β × Nat)
    (hpan : P (.panicked, pos)) (hk : ∀ p, P (k p)) : P (stepSeek r pos k) := by
  cases r with
  | none => exact hpan
  | some p => exact hk p

/-- C2: FormChunk::parse in full-decode mode rejects every form subtype
other than AIFF with InvalidFormType carrying the subtype bytes and
builds nothing, and for subtype AIFF returns an aggregate with every
chunk slot empty. -/
theorem claim_C2 :
    (∀ (data : List Nat) (pos : Nat) (szB ft : List Nat),
        readBytesP data pos 4 = some szB →
        readBytesP data (pos + 4) 4 = some ft →
        ft ≠ ids.AIFF →
        (FormChunk.parseCore data pos ids.FORM true).1 =
          .error (.invalidFormType ft)) ∧
    (∀ (data : List Nat) (pos : Nat) (szB : List Nat),
        readBytesP data pos 4 = some szB →
        readBytesP data (pos + 4) 4 = some ids.AIFF →
        (FormChunk.parseCore data pos ids.FORM true).1 = .ok (some emptyForm)) := by
  constructor
  · intro data pos szB ft h1 h2 hft
    unfold FormChunk.parseCore
    simp only [ne_eq, not_true_eq_false, if_false, read_i32_be, read_chunk_id, h1, h2,
      Option.map_some', step_some, Bool.not_true, Bool.false_eq_true, ite_false,
      if_neg hft, ite_self]
  · intro data pos szB h1 h2
    unfold FormChunk.parseCore
    simp only [ne_eq, not_true_eq_false, if_false, read_i32_be, read_chunk_id, h1, h2,
      Option.map_some', step_some, Bool.not_true, Bool.false_eq_true, ite_false,
      ite_true, emptyForm]

/-- Witness for C2 at concrete inputs: a FORM body declaring subtype AIFC
fails with InvalidFormType AIFC, one declaring AIFF yields the empty
aggregate. -/
theorem claim_C2_witness :
    readBytesP dFormAifc 0 4 = some [0, 0, 0, 10] ∧
    readBytesP dFormAifc 4 4 = some ids.AIFF_C ∧
    ids.AIFF_C ≠ ids.AIFF ∧
    (FormChunk.parseCore dFormAifc 0 ids.FORM true).1 =
      .error (.invalidFormType ids.AIFF_C) ∧
    (FormChunk.parseCore dFormAiff 0 ids.FORM true).1 = .ok (some emptyForm) :=
  ⟨by decide, by decide, by decide,
    claim_C2.1 dFormAifc 0 [0, 0, 0, 10] ids.AIFF_C (by decide) (by decide) (by decide),
    claim_C2.2 dFormAiff 0 [0, 0, 0, 10] (by decide) (by decide)⟩

/-- C6: every chunk decoder given a Some offset-output slot writes the
entry stream position (the position of the chunk size field, just after
the tag) into the slot before consuming any bytes. -/
theorem claim_C6 (codec : Codec) (k : ChunkKind) (data : List Nat) (pos : Nat)
    (id : ChunkID) (read_data : Bool) (slot : Option Nat) (x : Nat)
    (h : slot = some x) :
    (parseAt codec k data pos id read_data slot).slot = some pos := by
  subst h
  cases k <;> rfl

/-- Witness for C6: the Common decoder at position 9 records offset 9. -/
theorem claim_C6_witness :
    (some 5 : Option Nat) = some 5 ∧
    (parseAt codec0 .common [] 9 ids.COMMON true (some 5)).slot = some 9 :=
  ⟨rfl, claim_C6 codec0 .common [] 9 ids.COMMON true (some 5) 5 rfl⟩

/-- C7: AudioRecordingChunk::parse fails with InvalidSize(24, actual)
whenever the declared size differs from 24, consuming only the size field
(the stream stays at the start of the payload), and succeeds when the
declared size is exactly 24. -/
theorem claim_C7 :
    (∀ (data : List Nat) (pos : Nat) (read_data : Bool) (szB : List Nat),
        readBytesP data pos 4 = some szB →
        toI32 (beNat szB) ≠ 24 →
        AudioRecordingChunk.parseCore data pos ids.RECORDING read_data =
          (.error (.invalidSize 24 (toI32 (beNat szB))), pos + 4)) ∧
    (∀ (data : List Nat) (pos : Nat) (szB payload : List Nat),
        readBytesP data pos 4 = some szB →
        toI32 (beNat szB) = 24 →
        readBytesP data (pos + 4) 24 = some payload →
        AudioRecordingChunk.parseCore data pos ids.RECORDING true =
          (.ok (some ⟨24, payload⟩), pos + 4 + 24)) := by
  constructor
  · intro data pos read_data szB h1 hsz
    unfold AudioRecordingChunk.parseCore
    simp only [ne_eq, not_true_eq_false, if_false, read_i32_be, h1, Option.map_some',
      step_some, if_pos hsz]
  · intro data pos szB payload h1 hsz h2
    unfold AudioRecordingChunk.parseCore
    simp only [ne_eq, not_true_eq_false, if_false, read_i32_be, h1, Option.map_some',
      step_some, hsz, not_false_eq_true, ite_false, ite_true, Bool.not_true,
      Bool.false_eq_true, read_exactN, h2]

/-- Witness for C7: declared size 23 fails with InvalidSize(24, 23) right
after the size field; declared size 24 succeeds. -/
theorem claim_C7_witness :
    readBytesP dAesd23 0 4 = some [0, 0, 0, 23] ∧
    toI32 (beNat [0, 0, 0, 23]) ≠ 24 ∧
    AudioRecordingChunk.parseCore dAesd23 0 ids.RECORDING true =
      (.error (.invalidSize 24 23), 4) ∧
    AudioRecordingChunk.parseCore dAesd24 0 ids.RECORDING true =
      (.ok (some ⟨24, List.replicate 24 7⟩), 28) :=
  ⟨by decide, by decide,
    claim_C7.1 dAesd23 0 true [0, 0, 0, 23] (by decide) (by decide),
    claim_C7.2 dAesd24 0 [0, 0, 0, 24] (List.replicate 24 7) (by decide) (by decide)
      (by decide)⟩

/-- C8: duration returns the sample-frame count divided by the sample
rate as a 64-bit float whenever a Common chunk is set, and the absent
value when none is set. -/
theorem claim_C8 :
    (∀ (f : FormChunk) (c : CommonChunk), f.common = some c →
        f.duration = some (Float.ofNat c.num_sample_frames / c.sample_rate)) ∧
    (∀ f : FormChunk, f.common = none → f.duration = none) := by
  constructor
  · intro f c h
    unfold FormChunk.duration
    rw [h]
  · intro f h
    unfold FormChunk.duration
    rw [h]

/-- Witness for C8 at a concrete aggregate with 441 sample frames at rate
44100.0, and at the empty aggregate. -/
theorem claim_C8_witness :
    formC8.common = some ⟨18, 2, 441, 16, 44100.0⟩ ∧
    formC8.duration = some (Float.ofNat 441 / 44100.0) ∧
    emptyForm.duration = none :=
  ⟨rfl, claim_C8.1 formC8 ⟨18, 2, 441, 16, 44100.0⟩ rfl, claim_C8.2 emptyForm rfl⟩

/-- Counterexample to C5 as stated: MarkerChunk::parse invoked with the
skip-only flag on a well-formed marker chunk (declared size 2, zero
markers) returns a materialized chunk value, not the skipped result. -/
theorem claim_C5_counterexample :
    (MarkerChunk.parseCore dMarker6 0 ids.MARKER false).1 = .ok (some ⟨2, 0, []⟩) := by
  decide

/-- C5 amended: only FormChunk, CommonChunk, SoundDataChunk, TextChunk,
MIDIDataChunk, AudioRecordingChunk and ApplicationSpecificChunk honor the
skip-only flag and never return a decoded value in skip mode;
MarkerChunk, InstrumentChunk, CommentsChunk and ID3v2Chunk ignore the
flag and decode fully. -/
theorem claim_C5 (codec : Codec) (k : ChunkKind) (data : List Nat) (pos : Nat)
    (id : ChunkID) (h : skipHonored k = true) :
    ((parseCoreAt codec k data pos id false).1).isSomeOk = false := by
  cases k with
  | marker => simp [skipHonored] at h
  | instrument => simp [skipHonored] at h
  | comments => simp [skipHonored] at h
  | id3 => simp [skipHonored] at h
  | form =>
    simp only [parseCoreAt]
    try dsimp only
    unfold FormChunk.parseCore
    split
    · rfl
    · refine step_pres (fun rp => (rp.1.erase).isSomeOk = false) _ _ _ rfl fun v p => ?_
      simp only [Bool.not_false, ite_true]
      refine stepSeek_pres (fun rp => (rp.1.erase).isSomeOk = false) _ _ _ rfl
        fun p2 => ?_
      rfl
  | common =>
    simp only [parseCoreAt]
    try dsimp only
    unfold CommonChunk.parseCore
    split
    · rfl
    · refine step_pres (fun rp => (rp.1.erase).isSomeOk = false) _ _ _ rfl fun v p => ?_
      refine step_pres (fun rp => (rp.1.erase).isSomeOk = false) _ _ _ rfl fun v p => ?_
      refine step_pres (fun rp => (rp.1.erase).isSomeOk = false) _ _ _ rfl fun v p => ?_
      refine step_pres (fun rp => (rp.1.erase).isSomeOk = false) _ _ _ rfl fun v p => ?_
      simp only [Bool.not_false, ite_true]
      refine stepSeek_pres (fun rp => (rp.1.erase).isSomeOk = false) _ _ _ rfl
        fun p2 => ?_
      rfl
  | sound =>
    simp only [parseCoreAt]
    try dsimp only
    unfold SoundDataChunk.parseCore
    split
    · rfl
    · refine step_pres (fun rp => (rp.1.erase).isSomeOk = false) _ _ _ rfl fun v p => ?_
      refine step_pres (fun rp => (rp.1.erase).isSomeOk = false) _ _ _ rfl fun v p => ?_
      refine step_pres (fun rp => (rp.1.erase).isSomeOk = false) _ _ _ rfl fun v p => ?_
      simp only [Bool.not_false, ite_true]
      refine stepSeek_pres (fun rp => (rp.1.erase).isSomeOk = false) _ _ _ rfl
        fun p2 => ?_
      rfl
  | text =>
    simp only [parseCoreAt]
    try dsimp only
    unfold TextChunk.parseCore
    cases hct : TextChunk.chunkType id with
    | none => rfl
    | some chunk_type =>
      refine step_pres (fun rp => (rp.1.erase).isSomeOk = false) _ _ _ rfl fun v p => ?_
      simp only [Bool.not_false, ite_true]
      refine stepSeek_pres (fun rp => (rp.1.erase).isSomeOk = false) _ _ _ rfl
        fun p2 => ?_
      rfl
  | midi =>
    simp only [parseCoreAt]
    try dsimp only
    unfold MIDIDataChunk.parseCore
    split
    · rfl
    · refine step_pres (fun rp => (rp.1.erase).isSomeOk = false) _ _ _ rfl fun v p => ?_
      simp only [Bool.not_false, ite_true]
      refine stepSeek_pres (fun rp => (rp.1.erase).isSomeOk = false) _ _ _ rfl
        fun p2 => ?_
      rfl
  | recording =>
    simp only [parseCoreAt]
    try dsimp only
    unfold AudioRecordingChunk.parseCore
    split
    · rfl
    · refine step_pres (fun rp => (rp.1.erase).isSomeOk = false) _ _ _ rfl fun v p => ?_
      split
      · rfl
      · simp only [Bool.not_false, ite_true]
        refine stepSeek_pres (fun rp => (rp.1.erase).isSomeOk = false) _ _ _ rfl
          fun p2 => ?_
        rfl
  | application =>
    simp only [parseCoreAt]
    try dsimp only
    unfold ApplicationSpecificChunk.parseCore
    split
    · rfl
    · refine step_pres (fun rp => (rp.1.erase).isSomeOk = false) _ _ _ rfl fun v p => ?_
      refine step_pres (fun rp => (rp.1.erase).isSomeOk = false) _ _ _ rfl fun v p => ?_
      simp only [Bool.not_false, ite_true]
      refine stepSeek_pres (fun rp => (rp.1.erase).isSomeOk = false) _ _ _ rfl
        fun p2 => ?_
      rfl

/-- Witness for C5 amended: the Form decoder honors the flag on a
concrete skip-mode call. -/
theorem claim_C5_witness :
    skipHonored ChunkKind.form = true ∧
    ((parseCoreAt codec0 .form dFormAiff 0 ids.FORM false).1).isSomeOk = false :=
  ⟨rfl, claim_C5 codec0 .form dFormAiff 0 ids.FORM rfl⟩

/-- Counterexample to C3 as stated: on the unrecognized tag XXXX followed
by a size field declaring 2 bytes, the scan step advances only past the
4 tag bytes (to position 4); it does not read the size field and seek
past the declared payload (which would leave it at position 10). -/
theorem claim_C3_counterexample :
    readStep codec0 s3state = .next { s3state with pos := 4 } ∧ (4 : Nat) ≠ 8 + 2 :=
  ⟨rfl, by decide⟩

/-- C3 amended: when the 4-byte tag just read matches no dispatch arm of
the scan loop, the step only logs: the stream stays right after the tag
(4 bytes past the tag start), the size field is not read, nothing is
skipped, the aggregate and the tag list are unchanged, and no error is
raised. -/
theorem claim_C3 (codec : Codec) (s : ScanState) (id : ChunkID)
    (hread : readBytesP s.data s.pos 4 = some id)
    (h1 : id ≠ ids.COMMON) (h2 : id ≠ ids.SOUND) (h3 : id ≠ ids.MARKER)
    (h4 : id ≠ ids.INSTRUMENT) (h5 : id ≠ ids.MIDI) (h6 : id ≠ ids.RECORDING)
    (h7 : id ≠ ids.APPLICATION) (h8 : id ≠ ids.COMMENTS)
    (h9 : ¬(id = ids.NAME ∨ id = ids.AUTHOR ∨ id = ids.COPYRIGHT ∨ id = ids.ANNOTATION))
    (h10 : id ≠ ids.FVER)
    (h11 : id.take 3 ≠ ids.ID3) (h12 : id.drop 1 ≠ ids.ID3)
    (h13 : id.take 3 ≠ [84, 65, 71]) (h14 : id.drop 1 ≠ [84, 65, 71])
    (h15 : ¬(id = ids.CHAN ∨ id = ids.BASC ∨ id = ids.TRNS ∨ id = ids.CATE)) :
    readStep codec s = .next { s with pos := s.pos + 4 } := by
  unfold readStep
  simp only [read_chunk_id, hread, Option.map_some']
  rw [if_neg h1, if_neg h2, if_neg h3, if_neg h4, if_neg h5, if_neg h6, if_neg h7,
    if_neg h8, if_neg h9, if_neg h10, if_neg h11, if_neg h12, if_neg h13, if_neg h14,
    if_neg h15]

/-- Witness for C3 amended at the concrete unknown tag XXXX. -/
theorem claim_C3_witness :
    readBytesP s3state.data s3state.pos 4 = some [88, 88, 88, 88] ∧
    readStep codec0 s3state = .next { s3state with pos := s3state.pos + 4 } :=
  ⟨by decide,
    claim_C3 codec0 s3state [88, 88, 88, 88] (by decide) (by decide) (by decide)
      (by decide) (by decide) (by decide) (by decide) (by decide) (by decide)
      (by decide) (by decide) (by decide) (by decide) (by decide) (by decide)
      (by decide)⟩

/-- C10: a stream holding only the FORM header with subtype AIFF is read
successfully into an aggregate with every slot (in particular Common and
Sound) empty, no missing-chunk error exists; sample extraction on such an
aggregate panics (modelled none), and it likewise panics for any stored
bit depth outside 9 to 16 even when both chunks are present. -/
theorem claim_C10 :
    (AiffReader.read codec0 d10 = .done emptyForm [] 12 ∧ emptyForm.common = none ∧
      emptyForm.sound = none ∧ samples (some emptyForm) = none) ∧
    (∀ (f : FormChunk) (c : CommonChunk) (s : SoundDataChunk),
        f.common = some c → f.sound = some s →
        c.bit_rate ≤ 8 ∨ 16 < c.bit_rate → samples (some f) = none) := by
  refine ⟨⟨rfl, rfl, rfl, rfl⟩, ?_⟩
  intro f c s hc hs hbr
  unfold samples
  simp only [hc, hs]
  rcases hbr with h | h
  · rw [if_neg (by omega), if_neg (by omega)]
  · rw [if_pos h]

/-- Witness for C10 at an aggregate whose Common chunk stores bit depth
17 with a Sound chunk present. -/
theorem claim_C10_witness :
    form17.common = some ⟨10, 1, 1, 17, 8000.0⟩ ∧
    form17.sound = some ⟨4, 0, 0, [0, 0, 0, 0]⟩ ∧
    ((16 : Int) < 17) ∧
    samples (some form17) = none :=
  ⟨rfl, rfl, by decide,
    claim_C10.2 form17 ⟨10, 1, 1, 17, 8000.0⟩ ⟨4, 0, 0, [0, 0, 0, 0]⟩ rfl rfl
      (Or.inr (by decide))⟩

/-- Counterexample to C9 as stated: at a well-aligned embedded tag marker
with supported version bytes 3.0, a failure of the external codec is
unwrapped, so the scan panics instead of advancing 3 bytes and
continuing. -/
theorem claim_C9_counterexample :
    readStep codec0 s9ok = .panicked ∧
    StepRes.panicked ≠ .next { s9ok with pos := 3 } :=
  ⟨rfl, fun h => StepRes.noConfusion h⟩

/-- C9 amended: when the 4-byte window shows the tag-metadata marker at
alignment offset 0 or 1 and validating its 2-byte version fails, the scan
recovers: it moves to 3 bytes past the marker start and continues with no
error and no other change; but when the version validates and the
delegated external codec itself fails, the scan panics. -/
theorem id3_version_error (codec : Codec) (data : List Nat) (pos : Nat) (id : ChunkID)
    (v0 v1 : Nat) (hid : id.take 3 = ids.ID3 ∨ id.drop 1 = ids.ID3)
    (hv : readBytesP data (pos + 3) 2 = some [v0, v1])
    (hbad : 4 < v0 ∨ v1 ≠ 0) :
    ID3v2Chunk.parseCore codec data pos id true =
      (.error (.invalidID3Version (v0, v1)), pos) := by
  unfold ID3v2Chunk.parseCore
  rw [if_neg (not_not_intro hid)]
  have h3 : seekCur pos 3 = some (pos + 3) := by
    unfold seekCur
    rw [if_neg (by omega)]
    congr 1
  rw [h3, stepSeek_some]
  simp only [read_exactN, hv, Option.map_some', step_some]
  have h5 : seekCur (pos + 3 + 2) (-5) = some pos := by
    unfold seekCur
    rw [if_neg (by omega)]
    all_goals congr 1
    all_goals omega
  rw [h5, stepSeek_some]
  simp only [if_pos hbad]

theorem id3_codec_panic (codec : Codec) (data : List Nat) (pos : Nat) (id : ChunkID)
    (v0 v1 : Nat) (hid : id.take 3 = ids.ID3 ∨ id.drop 1 = ids.ID3)
    (hv : readBytesP data (pos + 3) 2 = some [v0, v1])
    (hv0 : v0 ≤ 4) (hv1 : v1 = 0) (hcodec : codec data pos = none) :
    ID3v2Chunk.parseCore codec data pos id true = (.panicked, pos) := by
  unfold ID3v2Chunk.parseCore
  rw [if_neg (not_not_intro hid)]
  have h3 : seekCur pos 3 = some (pos + 3) := by
    unfold seekCur
    rw [if_neg (by omega)]
    congr 1
  rw [h3, stepSeek_some]
  simp only [read_exactN, hv, Option.map_some', step_some]
  have h5 : seekCur (pos + 3 + 2) (-5) = some pos := by
    unfold seekCur
    rw [if_neg (by omega)]
    all_goals congr 1
    all_goals omega
  rw [h5, stepSeek_some]
  simp only [if_neg (show ¬(4 < v0 ∨ v1 ≠ 0) by omega), hcodec]

theorem claim_C9 :
    (∀ (codec : Codec) (s : ScanState) (b v0 v1 : Nat),
        readBytesP s.data s.pos 4 = some [73, 68, 51, b] →
        readBytesP s.data (s.pos + 3) 2 = some [v0, v1] →
        4 < v0 ∨ v1 ≠ 0 →
        readStep codec s = .next { s with pos := s.pos + 3 }) ∧
    (∀ (codec : Codec) (s : ScanState) (a v0 v1 : Nat),
        readBytesP s.data s.pos 4 = some [a, 73, 68, 51] →
        readBytesP s.data (s.pos + 4) 2 = some [v0, v1] →
        4 < v0 ∨ v1 ≠ 0 →
        readStep codec s = .next { s with pos := s.pos + 4 }) ∧
    (∀ (codec : Codec) (s : ScanState) (b v0 v1 : Nat),
        readBytesP s.data s.pos 4 = some [73, 68, 51, b] →
        readBytesP s.data (s.pos + 3) 2 = some [v0, v1] →
        v0 ≤ 4 → v1 = 0 →
        codec s.data s.pos = none →
        readStep codec s = .panicked) := by
  refine ⟨?_, ?_, ?_⟩
  · intro codec s b v0 v1 hid hv hbad
    have t1 : ([73, 68, 51, b] : List Nat).take 3 = [73, 68, 51] := rfl
    have t2 : ([73, 68, 51, b] : List Nat).drop 1 = [68, 51, b] := rfl
    unfold readStep
    simp only [read_chunk_id, hid, Option.map_some']
    simp [ids.COMMON, ids.SOUND, ids.MARKER, ids.INSTRUMENT, ids.MIDI, ids.RECORDING,
      ids.APPLICATION, ids.COMMENTS, ids.NAME, ids.AUTHOR, ids.COPYRIGHT, ids.ANNOTATION,
      ids.FVER, ids.ID3, ids.CHAN, ids.BASC, ids.TRNS, ids.CATE, t1, t2]
    rw [id3_version_error codec s.data s.pos [73, 68, 51, b] v0 v1 (Or.inl t1) hv hbad]
  · intro codec s a v0 v1 hid hv hbad
    have t1 : ([a, 73, 68, 51] : List Nat).take 3 = [a, 73, 68] := rfl
    have t2 : ([a, 73, 68, 51] : List Nat).drop 1 = [73, 68, 51] := rfl
    have hv2 : readBytesP s.data (s.pos + 1 + 3) 2 = some [v0, v1] := by
      rw [show s.pos + 1 + 3 = s.pos + 4 from by omega]
      exact hv
    unfold readStep
    simp only [read_chunk_id, hid, Option.map_some']
    simp [ids.COMMON, ids.SOUND, ids.MARKER, ids.INSTRUMENT, ids.MIDI, ids.RECORDING,
      ids.APPLICATION, ids.COMMENTS, ids.NAME, ids.AUTHOR, ids.COPYRIGHT, ids.ANNOTATION,
      ids.FVER, ids.ID3, ids.CHAN, ids.BASC, ids.TRNS, ids.CATE, t1, t2]
    rw [id3_version_error codec s.data (s.pos + 1) [a, 73, 68, 51] v0 v1 (Or.inr t2) hv2
      hbad]
  · intro codec s b v0 v1 hid hv hv0 hv1 hcodec
    have t1 : ([73, 68, 51, b] : List Nat).take 3 = [73, 68, 51] := rfl
    have t2 : ([73, 68, 51, b] : List Nat).drop 1 = [68, 51, b] := rfl
    unfold readStep
    simp only [read_chunk_id, hid, Option.map_some']
    simp [ids.COMMON, ids.SOUND, ids.MARKER, ids.INSTRUMENT, ids.MIDI, ids.RECORDING,
      ids.APPLICATION, ids.COMMENTS, ids.NAME, ids.AUTHOR, ids.COPYRIGHT, ids.ANNOTATION,
      ids.FVER, ids.ID3, ids.CHAN, ids.BASC, ids.TRNS, ids.CATE, t1, t2]
    rw [id3_codec_panic codec s.data s.pos [73, 68, 51, b] v0 v1 (Or.inl t1) hv hv0 hv1
      hcodec]

/-- Witness for C9 amended at three concrete states: version 5.0 at
alignment 0 recovers to position 3, version 9.0 at alignment 1 recovers
to position 4, and a codec failure under valid version 3.0 panics. -/
theorem claim_C9_witness :
    readBytesP s9bad.data s9bad.pos 4 = some [73, 68, 51, 5] ∧
    readStep codec0 s9bad = .next { s9bad with pos := s9bad.pos + 3 } ∧
    readStep codec0 s9off1 = .next { s9off1 with pos := s9off1.pos + 4 } ∧
    readStep codec0 s9ok = .panicked :=
  ⟨by decide,
    claim_C9.1 codec0 s9bad 5 5 0 (by decide) (by decide) (Or.inl (by decide)),
    claim_C9.2.1 codec0 s9off1 0 9 0 (by decide) (by decide) (Or.inl (by decide)),
    claim_C9.2.2 codec0 s9ok 3 3 0 (by decide) (by decide) (by decide) rfl rfl⟩

/-- Counterexample to C4 as stated: at bit depth 8 (1 channel, 1 sample
frame, a 1-byte payload holding 5) extraction does not produce the
sample-frame-count times channel-count values of ceil(8 div 8) = 1 byte
each that the claim promises (which would be the single value 5); it
panics (unimplemented). -/
theorem claim_C4_counterexample :
    samples (some form8) = none ∧ samples (some form8) ≠ some [5] :=
  ⟨rfl, by decide⟩

set_option maxRecDepth 4000 in
theorem collect16_eq (d : List Nat) :
    ∀ (n k : Nat), 2 * (k + n) < 2 ^ 32 → 2 * (k + n) ≤ d.length →
    collect16 d k n = some ((List.range n).map fun i =>
      d.getD (2 * (k + i)) 0 * 256 + d.getD (2 * (k + i) + 1) 0)
  | 0, k => by
    intro h1 h2
    simp [collect16]
  | n + 1, k => by
    intro h1 h2
    have hi0 : 2 * k % 2 ^ 32 = 2 * k := Nat.mod_eq_of_lt (by omega)
    have hlt : 2 * k + 1 < d.length := by omega
    simp only [collect16, hi0]
    rw [List.getElem?_eq_getElem (show 2 * k < d.length by omega),
      List.getElem?_eq_getElem hlt]
    dsimp only
    rw [collect16_eq d n (k + 1) (by omega) (by omega), Option.map_some']
    have goal2 : (((d[2 * k] * 256 + d[2 * k + 1]) :: (List.range n).map fun i =>
        d.getD (2 * (k + 1 + i)) 0 * 256 + d.getD (2 * (k + 1 + i) + 1) 0) : List Nat) =
        (List.range (n + 1)).map fun i =>
          d.getD (2 * (k + i)) 0 * 256 + d.getD (2 * (k + i) + 1) 0 := by
      rw [List.range_succ_eq_map]
      simp only [List.map_cons, List.map_map]
      congr 1
      · rw [List.getD_eq_getElem?_getD, List.getD_eq_getElem?_getD,
          List.getElem?_eq_getElem (show 2 * (k + 0) < d.length by omega),
          List.getElem?_eq_getElem (show 2 * (k + 0) + 1 < d.length by omega)]
        simp only [Option.getD_some]
        congr 2
      · apply List.map_congr_left
        intro i hi
        simp only [Function.comp_apply]
        congr 3 <;> omega
    rw [goal2]

/-- C4 amended: for bit depths 9 to 16 (the only implemented range; other
depths panic, see C10), sample extraction produces exactly sample-frame
count times channel count values, the value at point index i read
big-endian from the 2 consecutive payload bytes at offset i times 2, in
frame-major channel-minor order. -/
theorem claim_C4 (f : FormChunk) (c : CommonChunk) (s : SoundDataChunk)
    (hc : f.common = some c) (hs : f.sound = some s)
    (h8 : 8 < c.bit_rate) (h16 : c.bit_rate ≤ 16)
    (hsp : c.num_sample_frames * i16AsU32 c.num_channels < 2 ^ 31)
    (hlen : 2 * (c.num_sample_frames * i16AsU32 c.num_channels) ≤ s.sound_data.length) :
    samples (some f) =
      some ((List.range (c.num_sample_frames * i16AsU32 c.num_channels)).map fun i =>
        s.sound_data.getD (2 * i) 0 * 256 + s.sound_data.getD (2 * i + 1) 0) := by
  unfold samples
  simp only [hc, hs]
  rw [if_neg (by omega), if_pos h8]
  have hmod : c.num_sample_frames * i16AsU32 c.num_channels % 2 ^ 32 =
      c.num_sample_frames * i16AsU32 c.num_channels :=
    Nat.mod_eq_of_lt (by omega)
  rw [hmod]
  have hco := collect16_eq s.sound_data
    (c.num_sample_frames * i16AsU32 c.num_channels) 0 (by omega) (by omega)
  simp only [Nat.zero_add] at hco
  rw [hco]

/-- Witness for C4 amended at the concrete instance of the claim: 2
channels, 4 sample frames, 16-bit depth, a 16-byte payload, giving
exactly 8 values each from 2 consecutive bytes. -/
theorem claim_C4_witness :
    c4form.common = some c4common ∧ c4form.sound = some c4sound ∧
    ((8 : Int) < 16 ∧ (16 : Int) ≤ 16) ∧
    samples (some c4form) = some [1, 2, 3, 4, 5, 6, 7, 8] :=
  ⟨rfl, rfl, ⟨by decide, by decide⟩,
    (claim_C4 c4form c4common c4sound rfl rfl (by decide) (by decide) (by decide)
        (by decide)).trans (by decide)⟩

end Aiff

namespace Aiff

theorem erase_isOk {α : Type} (o : ParseOut α) : o.erase.isOk = o.isOk := by
  cases o with
  | panicked => rfl
  | error e => rfl
  | ok v => cases v <;> rfl

theorem readBytesP_some {data : List Nat} {pos n : Nat} {bs : List Nat}
    (h : readBytesP data pos n = some bs) : bs.length = n ∧ pos + n ≤ data.length := by
  unfold readBytesP at h
  split at h
  case isTrue hle =>
    cases h
    refine ⟨?_, hle⟩
    simp only [List.length_take, List.length_drop]
    omega
  case isFalse => cases h

theorem readBytesP_bytes {data : List Nat} {pos n : Nat} {bs : List Nat}
    (hd : ∀ x ∈ data, x < 256) (h : readBytesP data pos n = some bs) :
    ∀ x ∈ bs, x < 256 := by
  unfold readBytesP at h
  split at h
  case isTrue =>
    cases h
    intro x hx
    exact hd x (List.mem_of_mem_drop (List.mem_of_mem_take hx))
  case isFalse => cases h

theorem beNat_lt_aux : ∀ (bs : List Nat) (a : Nat), (∀ x ∈ bs, x < 256) →
    bs.foldl (fun acc b => acc * 256 + b) a < (a + 1) * 256 ^ bs.length
  | [], a, _ => by simp
  | b :: bs, a, h => by
    have hb : b < 256 := h b (by simp)
    have ih := beNat_lt_aux bs (a * 256 + b) fun x hx => h x (by simp [hx])
    simp only [List.foldl_cons, List.length_cons]
    have h2 : (a * 256 + b + 1) * 256 ^ bs.length ≤ (a + 1) * 256 ^ (bs.length + 1) := by
      have h3 : (a + 1) * 256 ^ (bs.length + 1) = ((a + 1) * 256) * 256 ^ bs.length := by
        ring
      rw [h3]
      exact Nat.mul_le_mul_right _ (by omega)
    omega

theorem beNat_lt (bs : List Nat) (h : ∀ x ∈ bs, x < 256) :
    beNat bs < 256 ^ bs.length := by
  have := beNat_lt_aux bs 0 h
  simpa [beNat] using this

theorem toI32_bounds {n : Nat} (h : n < 2 ^ 32) :
    -(2 ^ 31) ≤ toI32 n ∧ toI32 n < 2 ^ 31 := by
  unfold toI32
  split <;> constructor <;> omega

theorem read_i32_val {data : List Nat} {pos : Nat} {v : Int} {p : Nat}
    (hd : ∀ x ∈ data, x < 256) (h : read_i32_be data pos = some (v, p)) :
    p = pos + 4 ∧ -(2 ^ 31) ≤ v ∧ v < 2 ^ 31 := by
  unfold read_i32_be at h
  cases hb : readBytesP data pos 4 with
  | none => rw [hb] at h; simp at h
  | some bs =>
    rw [hb] at h
    simp only [Option.map_some', Option.some.injEq, Prod.mk.injEq] at h
    have hlen := (readBytesP_some hb).1
    have hlt : beNat bs < 2 ^ 32 := by
      have h2 := beNat_lt bs (readBytesP_bytes hd hb)
      rw [hlen] at h2
      calc beNat bs < 256 ^ 4 := h2
        _ = 2 ^ 32 := by norm_num
    obtain ⟨hv, hp⟩ := h
    subst hv
    exact ⟨hp.symm, toI32_bounds hlt⟩

theorem read_exactN_some {data : List Nat} {pos n : Nat} {bs : List Nat} {p : Nat}
    (h : read_exactN data pos n = some (bs, p)) :
    p = pos + n ∧ pos + n ≤ data.length := by
  unfold read_exactN at h
  cases hb : readBytesP data pos n with
  | none => rw [hb] at h; simp at h
  | some bs2 =>
    rw [hb] at h
    simp only [Option.map_some', Option.some.injEq, Prod.mk.injEq] at h
    exact ⟨h.2.symm, (readBytesP_some hb).2⟩

theorem toUsize_small {i : Int} (h0 : 0 ≤ i) (h1 : i < 2 ^ 31) :
    toUsize i = i.toNat := by
  unfold toUsize
  congr 1
  omega

theorem toUsize_large {i : Int} (hlo : -(2 ^ 31) - 4 ≤ i) (hneg : i < 0) :
    2 ^ 63 ≤ toUsize i := by
  unfold toUsize
  omega

theorem step_sf {α β γ : Type} (r : Option (α × Nat)) (pos : Nat)
    (k1 : α → Nat → ParseOut β × Nat) (k2 : α → Nat → ParseOut γ × Nat)
    (h : ∀ v p, r = some (v, p) → (k2 v p).1.isOk = true →
      (k1 v p).2 = (k2 v p).2 ∧ (k1 v p).1.isOk = true) :
    (step r pos k2).1.isOk = true →
      (step r pos k1).2 = (step r pos k2).2 ∧ (step r pos k1).1.isOk = true := by
  cases r with
  | none =>
    intro hf
    simp [step_nothing, ParseOut.isOk] at hf
  | some vp => exact h vp.1 vp.2 rfl

theorem c1_common (data : List Nat) (pos : Nat) (id : ChunkID) :
    (CommonChunk.parseCore data pos id true).1.isOk = true →
    ((CommonChunk.parseCore data pos id false).2 =
        (CommonChunk.parseCore data pos id true).2 ∧
      (CommonChunk.parseCore data pos id false).1.isOk = true) := by
  unfold CommonChunk.parseCore
  by_cases hid : id ≠ ids.COMMON
  · rw [if_pos hid]
    intro h
    simp [ParseOut.isOk] at h
  · simp only [if_neg hid]
    refine step_sf _ _ _ _ ?_
    intro size p1 hr1
    refine step_sf _ _ _ _ ?_
    intro nc p2 hr2
    refine step_sf _ _ _ _ ?_
    intro nsf p3 hr3
    refine step_sf _ _ _ _ ?_
    intro br p4 hr4
    simp only [Bool.not_true, Bool.not_false, Bool.false_eq_true, ite_true, ite_false]
    cases he : read_exactN data p4 10 with
    | none =>
      rw [step_nothing]
      intro hf
      simp [ParseOut.isOk] at hf
    | some rp =>
      obtain ⟨rb, p5⟩ := rp
      have hp5 : p5 = p4 + 10 := (read_exactN_some he).1
      rw [step_some, seekCur_nonneg p4 10 (by omega), stepSeek_some]
      cases hpe : parse_extended_precision_bytes rb with
      | error e =>
        intro hf
        simp [ParseOut.isOk] at hf
      | ok sr =>
        intro hf
        exact ⟨by rw [hp5]; rfl, rfl⟩

end Aiff

namespace Aiff

theorem read_chunk_id_some {data : List Nat} {pos : Nat} {id2 : ChunkID} {p : Nat}
    (h : read_chunk_id data pos = some (id2, p)) : p = pos + 4 := by
  unfold read_chunk_id at h
  cases hb : readBytesP data pos 4 with
  | none => rw [hb] at h; simp at h
  | some bs =>
    rw [hb] at h
    simp only [Option.map_some', Option.some.injEq, Prod.mk.injEq] at h
    exact h.2.symm

theorem c1_form (data : List Nat) (pos : Nat) (id : ChunkID) :
    (FormChunk.parseCore data pos id true).1.isOk = true →
    ((FormChunk.parseCore data pos id false).2 =
        (FormChunk.parseCore data pos id true).2 ∧
      (FormChunk.parseCore data pos id false).1.isOk = true) := by
  unfold FormChunk.parseCore
  by_cases hid : id ≠ ids.FORM
  · rw [if_pos hid]
    intro h
    simp [ParseOut.isOk] at h
  · simp only [if_neg hid]
    refine step_sf _ _ _ _ ?_
    intro size p1 hr1
    simp only [Bool.not_true, Bool.not_false, Bool.false_eq_true, ite_true, ite_false]
    cases hc : read_chunk_id data p1 with
    | none =>
      rw [step_nothing]
      intro hf
      simp [ParseOut.isOk] at hf
    | some fp =>
      obtain ⟨ft, p2⟩ := fp
      have hp2 : p2 = p1 + 4 := read_chunk_id_some hc
      rw [step_some, seekCur_nonneg p1 4 (by omega), stepSeek_some]
      by_cases hft : ft = ids.AIFF
      · rw [if_pos hft]
        intro hf
        exact ⟨by rw [hp2]; rfl, rfl⟩
      · rw [if_neg hft]
        split
        · intro hf
          simp [ParseOut.isOk] at hf
        · intro hf
          simp [ParseOut.isOk] at hf

theorem c1_sound (data : List Nat) (pos : Nat) (id : ChunkID)
    (hlen : data.length < 2 ^ 63) (hd : ∀ x ∈ data, x < 256) :
    (SoundDataChunk.parseCore data pos id true).1.isOk = true →
    ((SoundDataChunk.parseCore data pos id false).2 =
        (SoundDataChunk.parseCore data pos id true).2 ∧
      (SoundDataChunk.parseCore data pos id false).1.isOk = true) := by
  unfold SoundDataChunk.parseCore
  by_cases hid : id ≠ ids.SOUND
  · rw [if_pos hid]
    intro h
    simp [ParseOut.isOk] at h
  · simp only [if_neg hid]
    refine step_sf _ _ _ _ ?_
    intro size p1 hr1
    refine step_sf _ _ _ _ ?_
    intro off p2 hr2
    refine step_sf _ _ _ _ ?_
    intro bsz p3 hr3
    simp only [Bool.not_true, Bool.not_false, Bool.false_eq_true, ite_true, ite_false]
    cases he : read_exactN data p3 (toUsize size) with
    | none =>
      rw [step_nothing]
      intro hf
      simp [ParseOut.isOk] at hf
    | some sp =>
      obtain ⟨sd, p4⟩ := sp
      have h1 := read_exactN_some he
      have hb := read_i32_val hd hr1
      have hnn : 0 ≤ size := by
        by_contra hneg
        have h2 := toUsize_large (i := size) (by omega) (by omega)
        omega
      have hts : toUsize size = size.toNat := toUsize_small hnn (by omega)
      rw [step_some, seekCur_nonneg p3 size hnn, stepSeek_some]
      intro hf
      refine ⟨?_, rfl⟩
      rw [h1.1, hts]

theorem c1_midi (data : List Nat) (pos : Nat) (id : ChunkID)
    (hlen : data.length < 2 ^ 63) (hd : ∀ x ∈ data, x < 256) :
    (MIDIDataChunk.parseCore data pos id true).1.isOk = true →
    ((MIDIDataChunk.parseCore data pos id false).2 =
        (MIDIDataChunk.parseCore data pos id true).2 ∧
      (MIDIDataChunk.parseCore data pos id false).1.isOk = true) := by
  unfold MIDIDataChunk.parseCore
  by_cases hid : id ≠ ids.MIDI
  · rw [if_pos hid]
    intro h
    simp [ParseOut.isOk] at h
  · simp only [if_neg hid]
    refine step_sf _ _ _ _ ?_
    intro size p1 hr1
    simp only [Bool.not_true, Bool.not_false, Bool.false_eq_true, ite_true, ite_false]
    cases he : read_exactN data p1 (toUsize size) with
    | none =>
      rw [step_nothing]
      intro hf
      simp [ParseOut.isOk] at hf
    | some sp =>
      obtain ⟨sd, p2⟩ := sp
      have h1 := read_exactN_some he
      have hb := read_i32_val hd hr1
      have hnn : 0 ≤ size := by
        by_contra hneg
        have h2 := toUsize_large (i := size) (by omega) (by omega)
        omega
      have hts : toUsize size = size.toNat := toUsize_small hnn (by omega)
      rw [step_some, seekCur_nonneg p1 size hnn, stepSeek_some]
      intro hf
      refine ⟨?_, rfl⟩
      rw [h1.1, hts]

theorem c1_recording (data : List Nat) (pos : Nat) (id : ChunkID) :
    (AudioRecordingChunk.parseCore data pos id true).1.isOk = true →
    ((AudioRecordingChunk.parseCore data pos id false).2 =
        (AudioRecordingChunk.parseCore data pos id true).2 ∧
      (AudioRecordingChunk.parseCore data pos id false).1.isOk = true) := by
  unfold AudioRecordingChunk.parseCore
  by_cases hid : id ≠ ids.RECORDING
  · rw [if_pos hid]
    intro h
    simp [ParseOut.isOk] at h
  · simp only [if_neg hid]
    refine step_sf _ _ _ _ ?_
    intro size p1 hr1
    by_cases hsz : size ≠ 24
    · simp only [if_pos hsz]
      intro hf
      simp [ParseOut.isOk] at hf
    · simp only [if_neg hsz]
      simp only [Bool.not_true, Bool.not_false, Bool.false_eq_true, ite_true, ite_false]
      cases he : read_exactN data p1 24 with
      | none =>
        rw [step_nothing]
        intro hf
        simp [ParseOut.isOk] at hf
      | some rp =>
        obtain ⟨rb, p2⟩ := rp
        have h1 := read_exactN_some he
        rw [step_some, seekCur_nonneg p1 24 (by omega), stepSeek_some]
        intro hf
        exact ⟨by rw [h1.1]; rfl, rfl⟩

theorem c1_application (data : List Nat) (pos : Nat) (id : ChunkID)
    (hlen : data.length < 2 ^ 63) (hd : ∀ x ∈ data, x < 256) :
    (ApplicationSpecificChunk.parseCore data pos id true).1.isOk = true →
    ((ApplicationSpecificChunk.parseCore data pos id false).2 =
        (ApplicationSpecificChunk.parseCore data pos id true).2 ∧
      (ApplicationSpecificChunk.parseCore data pos id false).1.isOk = true) := by
  unfold ApplicationSpecificChunk.parseCore
  by_cases hid : id ≠ ids.APPLICATION
  · rw [if_pos hid]
    intro h
    simp [ParseOut.isOk] at h
  · simp only [if_neg hid]
    refine step_sf _ _ _ _ ?_
    intro size p1 hr1
    refine step_sf _ _ _ _ ?_
    intro sig p2 hr2
    simp only [Bool.not_true, Bool.not_false, Bool.false_eq_true, ite_true, ite_false]
    cases he : read_exactN data p2 (toUsize (size - 4)) with
    | none =>
      rw [step_nothing]
      intro hf
      simp [ParseOut.isOk] at hf
    | some ap =>
      obtain ⟨ad, p3⟩ := ap
      have h1 := read_exactN_some he
      have hb := read_i32_val hd hr1
      have hnn : 0 ≤ size - 4 := by
        by_contra hneg
        have h2 := toUsize_large (i := size - 4) (by omega) (by omega)
        omega
      have hts : toUsize (size - 4) = (size - 4).toNat := toUsize_small hnn (by omega)
      rw [step_some, seekCur_nonneg p2 (size - 4) hnn, stepSeek_some]
      intro hf
      refine ⟨?_, rfl⟩
      rw [h1.1, hts]

theorem c1_text (data : List Nat) (pos : Nat) (id : ChunkID)
    (hlen : data.length < 2 ^ 63) (hd : ∀ x ∈ data, x < 256) :
    (TextChunk.parseCore data pos id true).1.isOk = true →
    ((TextChunk.parseCore data pos id false).2 =
        (TextChunk.parseCore data pos id true).2 ∧
      (TextChunk.parseCore data pos id false).1.isOk = true) := by
  unfold TextChunk.parseCore
  cases hct : TextChunk.chunkType id with
  | none =>
    intro h
    simp [ParseOut.isOk] at h
  | some ct =>
    refine step_sf _ _ _ _ ?_
    intro size p1 hr1
    simp only [Bool.not_true, Bool.not_false, Bool.false_eq_true, ite_true, ite_false]
    cases he : read_exactN data p1 (toUsize size) with
    | none =>
      rw [step_nothing]
      intro hf
      simp [ParseOut.isOk] at hf
    | some tp =>
      obtain ⟨tb, p2⟩ := tp
      have h1 := read_exactN_some he
      have hb := read_i32_val hd hr1
      have hnn : 0 ≤ size := by
        by_contra hneg
        have h2 := toUsize_large (i := size) (by omega) (by omega)
        omega
      have hts : toUsize size = size.toNat := toUsize_small hnn (by omega)
      rw [step_some]
      cases hu : utf8Valid tb with
      | false =>
        simp only [hu, Bool.false_eq_true, ite_false]
        intro hf
        simp [ParseOut.isOk] at hf
      | true =>
        simp only [hu, ite_true]
        by_cases ho : size.tmod 2 > 0
        · simp only [if_pos ho]
          rw [seekCur_nonneg p1 (size + 1) (by omega), stepSeek_some,
            seekCur_nonneg p2 1 (by omega), stepSeek_some]
          intro hf
          refine ⟨?_, rfl⟩
          rw [h1.1, hts]
          omega
        · simp only [if_neg ho]
          rw [seekCur_nonneg p1 (size + 0) (by omega), stepSeek_some,
            seekCur_nonneg p2 0 (by omega), stepSeek_some]
          intro hf
          refine ⟨?_, rfl⟩
          rw [h1.1, hts]
          omega

end Aiff

namespace Aiff

/-- C1: for every supported chunk type, skip mode advances the stream to
exactly the position a successful full decode reaches. -/
theorem claim_C1 (codec : Codec) (k : ChunkKind) (data : List Nat) (pos : Nat)
    (id : ChunkID) (hlen : data.length < 2 ^ 63) (hd : ∀ x ∈ data, x < 256)
    (hfull : (parseCoreAt codec k data pos id true).1.isOk = true) :
    (parseCoreAt codec k data pos id false).2 =
      (parseCoreAt codec k data pos id true).2 ∧
    (parseCoreAt codec k data pos id false).1.isOk = true := by
  cases k with
  | form =>
    simp only [parseCoreAt, erase_isOk] at hfull ⊢
    exact c1_form data pos id hfull
  | common =>
    simp only [parseCoreAt, erase_isOk] at hfull ⊢
    exact c1_common data pos id hfull
  | sound =>
    simp only [parseCoreAt, erase_isOk] at hfull ⊢
    exact c1_sound data pos id hlen hd hfull
  | marker => exact ⟨rfl, hfull⟩
  | text =>
    simp only [parseCoreAt, erase_isOk] at hfull ⊢
    exact c1_text data pos id hlen hd hfull
  | instrument => exact ⟨rfl, hfull⟩
  | midi =>
    simp only [parseCoreAt, erase_isOk] at hfull ⊢
    exact c1_midi data pos id hlen hd hfull
  | recording =>
    simp only [parseCoreAt, erase_isOk] at hfull ⊢
    exact c1_recording data pos id hfull
  | application =>
    simp only [parseCoreAt, erase_isOk] at hfull ⊢
    exact c1_application data pos id hlen hd hfull
  | comments => exact ⟨rfl, hfull⟩
  | id3 => exact ⟨rfl, hfull⟩

/-- Witness for C1 at a concrete odd-length text chunk, the pad byte
included in both modes. -/
theorem claim_C1_witness :
    dText8.length < 2 ^ 63 ∧ (∀ x ∈ dText8, x < 256) ∧
    (parseCoreAt codec0 .text dText8 0 ids.NAME true).1.isOk = true ∧
    ((parseCoreAt codec0 .text dText8 0 ids.NAME false).2 =
        (parseCoreAt codec0 .text dText8 0 ids.NAME true).2 ∧
      (parseCoreAt codec0 .text dText8 0 ids.NAME false).1.isOk = true) :=
  ⟨by decide, by decide, by decide,
    claim_C1 codec0 .text dText8 0 ids.NAME (by decide) (by decide) (by decide)⟩

end Aiff
